import Mathlib

/-!
Verification of the scaffolding generator `create_module.py` of the
ninja-boilerplate repository.  The Python program is shallowly embedded:
the filesystem is a pair of a directory set and a file map (paths are
lists of path components relative to the project base directory), the
settings document is the content of the file `core/settings.py` in that
map, and every Python string operation the generator uses
(`str.lower`, `str.capitalize`, `str.isidentifier`, `str.splitlines`,
`'\n'.join`, the `in` substring test, `list.index`, `list.insert`) is
given an executable Lean counterpart restricted to ASCII text, which is
all the generator ever produces or consumes.
-/

/-- Python `str.lower`, restricted to ASCII (the generator only handles
ASCII identifiers). -/
def py_lower (s : String) : String :=
  String.mk (s.data.map Char.toLower)

/-- Python `str.capitalize`: first character uppercased, the rest
lowercased (ASCII). -/
def py_capitalize (s : String) : String :=
  match s.data with
  | [] => ""
  | c :: rest => String.mk (c.toUpper :: rest.map Char.toLower)

/-- Start character of a Python identifier (ASCII restriction of
`str.isidentifier`). -/
def identStart (c : Char) : Bool := c.isAlpha || c = '_'

/-- Continuation character of a Python identifier (ASCII restriction). -/
def identCont (c : Char) : Bool := c.isAlphanum || c = '_'

/-- Python `str.isidentifier`, restricted to ASCII identifiers. -/
def py_isidentifier (s : String) : Bool :=
  match s.data with
  | [] => false
  | c :: rest => identStart c && rest.all identCont

/-- Split a character list at newline characters, Python
`str.splitlines` style: a trailing newline terminates the last line
instead of opening an empty one.  `acc` holds the characters of the
current line in reverse. -/
def linesAux (acc : List Char) : List Char → List (List Char)
  | [] => if acc.isEmpty then [] else [acc.reverse]
  | c :: rest =>
      if c = '\n' then acc.reverse :: linesAux [] rest
      else linesAux (c :: acc) rest

/-- Python `str.splitlines` for documents whose only line separator is
`'\n'`, which holds for every settings document the generator writes or
reads. -/
def py_splitlines (s : String) : List String :=
  (linesAux [] s.data).map fun cs => String.mk cs

/-- Python `'\n'.join` at the character-list level. -/
def joinNlChars : List (List Char) → List Char
  | [] => []
  | [l] => l
  | l :: ls => l ++ '\n' :: joinNlChars ls

/-- Python `'\n'.join` on strings. -/
def py_join_nl (lines : List String) : String :=
  String.mk (joinNlChars (lines.map String.data))

/-- Python `sub in s` substring test. -/
def strContains (s sub : String) : Bool :=
  decide (sub.data <:+: s.data)

/-- The filesystem the generator mutates, relative to the directory of
`create_module.py` (`BASE_DIR`): the set of existing directories and an
association of file paths to their text content.  `out` records every
line printed to standard output. -/
structure PyState where
  dirs : List (List String)
  files : List (List String × String)
  out : List String
  deriving Repr, DecidableEq

/-- `BASE_DIR`-relative path of `SETTINGS_FILE = BASE_DIR / "core/settings.py"`. -/
def settingsPath : List String := ["core", "settings.py"]

/-- Content lookup for a file, `Path.read_text` / existence of a file. -/
def readFile (st : PyState) (p : List String) : Option String :=
  (st.files.find? fun e => e.1 = p).map fun e => e.2

/-- `Path.write_text`: create or overwrite the file at `p` (the
association list shadows older entries, `readFile` takes the newest). -/
def writeFile (st : PyState) (p : List String) (c : String) : PyState :=
  { st with files := (p, c) :: st.files }

/-- Does a directory exist at `p`? -/
def dirExists (st : PyState) (p : List String) : Bool :=
  st.dirs.contains p

/-- Does a file exist at `p`? -/
def fileExists (st : PyState) (p : List String) : Bool :=
  st.files.any fun e => e.1 = p

/-- `Path.exists`: true if either a directory or a file sits at `p`. -/
def pathExists (st : PyState) (p : List String) : Bool :=
  dirExists st p || fileExists st p

/-- Every nonempty prefix of a path, shortest first. -/
def pathPrefixes (p : List String) : List (List String) :=
  (List.range p.length).map fun i => p.take (i + 1)

/-- `os.makedirs(p, exist_ok=True)`: create the directory `p` and all of
its ancestors. -/
def makedirs (st : PyState) (p : List String) : PyState :=
  { st with
    dirs := (pathPrefixes p).foldl
      (fun ds q => if ds.contains q then ds else q :: ds) st.dirs }

/-- Append printed lines to the recorded standard output. -/
def pushOut (st : PyState) (lines : List String) : PyState :=
  { st with out := st.out ++ lines }

/-- A node of the Structure Template: a leaf file with initial content,
or a directory with an ordered list of named children (Python dict
insertion order). -/
inductive Node where
  | file : String → Node
  | dir : List (String × Node) → Node

/-- `AppStructureGenerator._generate_app_config`: the templated content
of `apps.py` for a module name. -/
def generate_app_config (app_name : String) : String :=
  "from django.apps import AppConfig\n\nclass " ++ py_capitalize app_name ++
  "Config(AppConfig):\n    default_auto_field = 'django.db.models.BigAutoField'\n    label = '" ++
  app_name ++ "'\n    name = 'modules." ++ app_name ++ "'\n"

/-- `AppStructureGenerator._generate_models_init`: the fixed content of
`models/__init__.py` (a plain string constant in the source). -/
def generate_models_init : String :=
  "import os\nimport importlib\nimport inspect\nfrom django.db import models\n\n" ++
  "# Get the current directory\ncurrent_dir = os.path.dirname(os.path.abspath(__file__))\n\n" ++
  "# Loop through all .py files in the models directory\nfor file_name in os.listdir(current_dir):\n" ++
  "    if file_name.endswith('.py') and file_name != '__init__.py':\n" ++
  "        # Import the module\n        module_name = file_name[:-3]  # Remove .py extension\n" ++
  "        module = importlib.import_module(f'.\x7bmodule_name\x7d', package=__package__)\n        \n" ++
  "        # Find all Django Model classes in the module\n" ++
  "        for name, obj in inspect.getmembers(module):\n" ++
  "            if inspect.isclass(obj) and issubclass(obj, models.Model) and obj != models.Model:\n" ++
  "                # Add the model to the current namespace\n                globals()[name] = obj\n"

/-- `AppStructureGenerator.get_app_structure`: the Structure Template, a
nested ordered mapping from names to subdirectories or leaf-file
contents (the `tests` block is commented out in the source). -/
def get_app_structure (app_name : String) : List (String × Node) :=
  [("delivery", .dir
      [("__init__.py", .file ""),
       ("api.py", .file "#write API endpoints and controllers here."),
       ("schemas.py", .file "#write ninja schemas here"),
       ("middlewares.py", .file "#write your api middlewares here if needed")]),
   ("repository", .dir [("__init__.py", .file "")]),
   ("services", .dir [("__init__.py", .file "")]),
   ("usecases", .dir [("__init__.py", .file "")]),
   ("models", .dir [("__init__.py", .file generate_models_init)]),
   ("migrations", .dir [("__init__.py", .file "")]),
   ("__init__.py", .file ""),
   ("apps.py", .file (generate_app_config app_name))]

/-- Rendering of `current_path.relative_to(self.MODULES_DIR)` for the
per-file progress print: drop the leading `modules` component. -/
def relToModules (p : List String) : String :=
  String.intercalate "/" (p.drop 1)

mutual
/-- `AppStructureGenerator._create_structure`: recursively create
directories and files.  A `dir` node makes its directory and processes
its children in template order; a `file` node is written at its path
(after the progress print the source emits for each file). -/
def createStructure (base : List String) (st : PyState) : Node → PyState
  | .file c =>
      writeFile (pushOut st ["   Creating: " ++ relToModules base]) base c
  | .dir children => createChildren base (makedirs st base) children

/-- The loop body of `_create_structure` over a directory's children. -/
def createChildren (base : List String) (st : PyState) :
    List (String × Node) → PyState
  | [] => st
  | (name, node) :: rest =>
      createChildren base (createStructure (base ++ [name]) st node) rest
end

/-- The error taxonomy raised by the generator (all surfaced as
`AppCreationError` in the source; the constructor records which check
failed). -/
inductive AppError where
  | settingsNotFound
  | anchorNotFound
  | alreadyExists
  deriving Repr, DecidableEq

/-- The Python error message text carried by each `AppCreationError`. -/
def AppError.msg (appName : String) : AppError → String
  | .settingsNotFound => "settings.py not found"
  | .anchorNotFound => "LOCAL_APPS section not found in settings.py"
  | .alreadyExists => "App '" ++ appName ++ "' already exists"

/-- The anchor line searched for by exact list-element match
(`content.index("LOCAL_APPS = [")`). -/
def anchorLine : String := "LOCAL_APPS = ["

/-- The Registration Entry inserted after the anchor
(`f"    'modules.{app_name}.apps.{app_name.capitalize()}Config',\n"`,
trailing newline included, exactly as in the source). -/
def registration_entry (app_name : String) : String :=
  "    'modules." ++ app_name ++ ".apps." ++ py_capitalize app_name ++ "Config',\n"

/-- `AppStructureGenerator._register_app_in_settings`: locate the anchor
line in the settings document, guard against an existing substring
mention of the name, insert the Registration Entry after the anchor and
rewrite the document line-joined. -/
def register_app_in_settings (app_name : String) (st : PyState) :
    Option AppError × PyState :=
  match readFile st settingsPath with
  | none => (some .settingsNotFound, st)
  | some text =>
    let content := py_splitlines text
    match content.findIdx? (fun l => l = anchorLine) with
    | none => (some .anchorNotFound, st)
    | some start_index =>
      if content.any (fun line => strContains line app_name) then
        (none, pushOut st
          ["\n⚠️  Warning: App '" ++ app_name ++ "' is already registered in settings.py"])
      else
        (none, writeFile st settingsPath
          (py_join_nl (List.insertIdx (start_index + 1) (registration_entry app_name) content)))

/-- `AppStructureGenerator.create_app`: reject an existing target
directory, materialize the Structure Template under
`modules/<app_name>`, then register the app in the settings document.
The returned state is the state at the point of return or raise (a
failure after the tree is built keeps the tree: no rollback). -/
def create_app (app_name : String) (st : PyState) : Option AppError × PyState :=
  if pathExists st ["modules", app_name] then
    (some .alreadyExists, pushOut st
      ["\n❌ Error: Failed to create app: " ++ AppError.msg app_name .alreadyExists])
  else
    let st1 := pushOut st ["\n📦 Creating new app: " ++ app_name]
    let st2 := createStructure ["modules", app_name] st1 (.dir (get_app_structure app_name))
    let st3 := pushOut st2 ["✅ App structure created successfully"]
    match register_app_in_settings app_name st3 with
    | (some e, st4) =>
        (some e, pushOut st4
          ["\n❌ Error: Failed to register app in settings: " ++ AppError.msg app_name e,
           "\n❌ Error: Failed to create app: App registration failed: " ++ AppError.msg app_name e])
    | (none, st4) => (none, pushOut st4 ["✅ App registered in settings.py"])

/-- The usage message printed on wrong arity. -/
def usageLines : List String :=
  ["\n❌ Error: Invalid number of arguments",
   "Usage: python create_app.py <app_name>"]

/-- `main`: requires exactly one positional argument (`len(sys.argv) != 2`
rejects), lowercases it, validates it with `str.isidentifier`, then runs
`create_app`.  Returns the process exit status and the final state. -/
def py_main (argv : List String) (st : PyState) : Nat × PyState :=
  match argv with
  | [_prog, arg] =>
    let app_name := py_lower arg
    if py_isidentifier app_name then
      match create_app app_name st with
      | (none, st1) =>
          (0, pushOut st1
            ["\n🎉 Successfully created app: " ++ app_name,
             "\nStructure created:",
             "   modules/" ++ app_name ++ "/",
             "   ├── delivery/", "   ├── repository/", "   ├── services/",
             "   ├── usecases/", "   ├── models/", "   ├── migrations/"])
      | (some e, st1) =>
          (1, pushOut st1
            ["\n❌ Error: App creation failed: " ++ AppError.msg app_name e])
    else
      (1, pushOut st
        ["\n❌ Error: Invalid app name: " ++ app_name,
         "App name must be a valid Python identifier"])
  | _ => (1, pushOut st usageLines)

/-! ### Basic lemmas about the filesystem state -/

theorem readFile_writeFile (st : PyState) (p q : List String) (c : String) :
    readFile (writeFile st p c) q = if q = p then some c else readFile st q := by
  by_cases h : q = p
  · subst h; simp [readFile, writeFile]
  · simp [readFile, writeFile, h, Ne.symm h]

theorem readFile_makedirs (st : PyState) (p q : List String) :
    readFile (makedirs st p) q = readFile st q := rfl

theorem readFile_pushOut (st : PyState) (l : List String) (q : List String) :
    readFile (pushOut st l) q = readFile st q := rfl

theorem dirExists_writeFile (st : PyState) (p q : List String) (c : String) :
    dirExists (writeFile st p c) q = dirExists st q := rfl

theorem dirExists_pushOut (st : PyState) (l : List String) (q : List String) :
    dirExists (pushOut st l) q = dirExists st q := rfl

theorem contains_dirInsert (l ds : List (List String)) (x : List String) :
    (l.foldl (fun ds q => if ds.contains q then ds else q :: ds) ds).contains x
      = (l.contains x || ds.contains x) := by
  induction l generalizing ds with
  | nil => simp
  | cons q l ih =>
    simp only [List.foldl_cons, List.contains_cons]
    by_cases hq : ds.contains q = true
    · rw [if_pos hq, ih]
      by_cases hx : x = q
      · subst hx
        have hmem : x ∈ ds := by simpa using hq
        simp [hmem]
      · have hxq : (x == q) = false := by simp [hx]
        simp [hxq]
    · rw [if_neg hq, ih, List.contains_cons]
      simp [Bool.or_comm, Bool.or_left_comm, Bool.or_assoc]

theorem dirExists_makedirs (st : PyState) (p q : List String) :
    dirExists (makedirs st p) q = ((pathPrefixes p).contains q || dirExists st q) := by
  simpa [dirExists, makedirs] using contains_dirInsert (pathPrefixes p) st.dirs q

/-! ### Flattening the Structure Template into expected paths -/

mutual
/-- All paths declared by a template node: directories carry `none`,
leaf files carry their expected content. -/
def flattenNode (base : List String) : Node → List (List String × Option String)
  | .file c => [(base, some c)]
  | .dir children => (base, none) :: flattenChildren base children

/-- Flattening of a directory's children. -/
def flattenChildren (base : List String) :
    List (String × Node) → List (List String × Option String)
  | [] => []
  | (name, node) :: rest =>
      flattenNode (base ++ [name]) node ++ flattenChildren base rest
end

/-- One expected path is realized in a state: the directory exists, or
the file exists with exactly the expected content. -/
def entryOk (st : PyState) : List String × Option String → Bool
  | (p, some c) => decide (readFile st p = some c)
  | (p, none) => dirExists st p

/-- Every path declared by the Structure Template for module `n`
(including the `modules/<n>` root) exists with exactly the template's
content for leaf files. -/
def structureMaterialized (n : String) (st : PyState) : Bool :=
  (flattenNode ["modules", n] (.dir (get_app_structure n))).all (entryOk st)

theorem materialized_readFile (n : String) (st : PyState) (p : List String) (c : String)
    (hm : structureMaterialized n st = true)
    (hp : (p, some c) ∈ flattenNode ["modules", n] (.dir (get_app_structure n))) :
    readFile st p = some c := by
  have := List.all_eq_true.mp hm _ hp
  simpa [entryOk] using this

theorem materialized_dirExists (n : String) (st : PyState) (p : List String)
    (hm : structureMaterialized n st = true)
    (hp : (p, none) ∈ flattenNode ["modules", n] (.dir (get_app_structure n))) :
    dirExists st p = true := by
  have := List.all_eq_true.mp hm _ hp
  simpa [entryOk] using this

theorem pathPrefixes_pair (a b : String) : pathPrefixes [a, b] = [[a], [a, b]] := rfl

theorem pathPrefixes_triple (a b c : String) :
    pathPrefixes [a, b, c] = [[a], [a, b], [a, b, c]] := rfl

set_option maxHeartbeats 1000000 in
/-- Running `_create_structure` on the Structure Template materializes
every declared path, whatever the starting state. -/
theorem createStructure_materialized (n : String) (st : PyState) :
    structureMaterialized n
      (createStructure ["modules", n] st (.dir (get_app_structure n))) = true := by
  simp only [structureMaterialized, get_app_structure, createStructure, createChildren,
    flattenNode, flattenChildren, List.all_cons, List.all_nil, List.append_nil,
    List.cons_append, List.nil_append, entryOk]
  simp [readFile_writeFile, readFile_makedirs, readFile_pushOut,
    dirExists_writeFile, dirExists_pushOut, dirExists_makedirs,
    pathPrefixes_pair, pathPrefixes_triple]

/-- `_create_structure` only writes below `modules/<n>`: the settings
document is untouched. -/
theorem createStructure_settings (n : String) (st : PyState) :
    readFile (createStructure ["modules", n] st (.dir (get_app_structure n))) settingsPath
      = readFile st settingsPath := by
  simp [createStructure, createChildren, get_app_structure, readFile_writeFile,
    readFile_makedirs, readFile_pushOut, settingsPath]

theorem all_congr_of_mem {α : Type} (l : List α) (f g : α → Bool)
    (h : ∀ e ∈ l, f e = g e) : l.all f = l.all g := by
  induction l with
  | nil => rfl
  | cons x xs ih =>
    simp only [List.all_cons, h x (by simp)]
    rw [ih fun e he => h e (by simp [he])]

theorem entryOk_pushOut (st : PyState) (l : List String)
    (e : List String × Option String) : entryOk (pushOut st l) e = entryOk st e := by
  rcases e with ⟨p, _ | c⟩ <;> rfl

theorem entryOk_writeFile (st : PyState) (q : List String) (c : String)
    (e : List String × Option String) (h : e.1 ≠ q) :
    entryOk (writeFile st q c) e = entryOk st e := by
  rcases e with ⟨p, _ | c'⟩
  · rfl
  · simp only [entryOk, readFile_writeFile]
    rw [if_neg h]

/-- Every path declared by the Structure Template starts with the
`modules` component. -/
theorem flatten_head (n : String) :
    ∀ e ∈ flattenNode ["modules", n] (.dir (get_app_structure n)),
      e.1.head? = some "modules" := by
  intro e he
  simp only [flattenNode, flattenChildren, get_app_structure, List.cons_append,
    List.nil_append] at he
  fin_cases he <;> rfl

theorem structureMaterialized_pushOut (n : String) (st : PyState) (l : List String) :
    structureMaterialized n (pushOut st l) = structureMaterialized n st :=
  all_congr_of_mem _ _ _ fun e _ => entryOk_pushOut st l e

theorem structureMaterialized_writeSettings (n : String) (st : PyState) (c : String) :
    structureMaterialized n (writeFile st settingsPath c) = structureMaterialized n st := by
  refine all_congr_of_mem _ _ _ fun e he => entryOk_writeFile st settingsPath c e ?_
  have hh := flatten_head n e he
  intro hp
  rw [hp] at hh
  simp [settingsPath] at hh

/-- `_register_app_in_settings` either leaves the state alone, only
prints, or rewrites the settings document. -/
theorem register_state_cases (n : String) (st : PyState) :
    (register_app_in_settings n st).2 = st ∨
    (∃ l, (register_app_in_settings n st).2 = pushOut st l) ∨
    (∃ c, (register_app_in_settings n st).2 = writeFile st settingsPath c) := by
  rcases hr : readFile st settingsPath with _ | T
  · exact Or.inl (by simp [register_app_in_settings, hr])
  · rcases ha : (py_splitlines T).findIdx? (fun l => l = anchorLine) with _ | i
    · exact Or.inl (by simp [register_app_in_settings, hr, ha])
    · by_cases hd : (py_splitlines T).any (fun line => strContains line n) = true
      · exact Or.inr (Or.inl
          ⟨["\n⚠️  Warning: App '" ++ n ++ "' is already registered in settings.py"],
           by simp [register_app_in_settings, hr, ha, hd]⟩)
      · exact Or.inr (Or.inr
          ⟨py_join_nl (List.insertIdx (i + 1) (registration_entry n) (py_splitlines T)),
           by simp [register_app_in_settings, hr, ha, hd]⟩)

/-- The state after `create_app` has built the module tree, right before
settings registration. -/
def afterTree (n : String) (st : PyState) : PyState :=
  pushOut (createStructure ["modules", n] (pushOut st ["\n📦 Creating new app: " ++ n])
    (.dir (get_app_structure n))) ["✅ App structure created successfully"]

theorem readFile_afterTree_settings (n : String) (st : PyState) :
    readFile (afterTree n st) settingsPath = readFile st settingsPath := by
  simp [afterTree, readFile_pushOut, createStructure_settings]

theorem afterTree_materialized (n : String) (st : PyState) :
    structureMaterialized n (afterTree n st) = true := by
  rw [afterTree, structureMaterialized_pushOut]
  exact createStructure_materialized n _

theorem create_app_eq (n : String) (st : PyState)
    (hfresh : pathExists st ["modules", n] = false) :
    create_app n st =
      match register_app_in_settings n (afterTree n st) with
      | (some e, st4) => (some e, pushOut st4
          ["\n❌ Error: Failed to register app in settings: " ++ AppError.msg n e,
           "\n❌ Error: Failed to create app: App registration failed: " ++ AppError.msg n e])
      | (none, st4) => (none, pushOut st4 ["✅ App registered in settings.py"]) := by
  unfold create_app
  rw [hfresh]
  simp only [Bool.false_eq_true, if_false, afterTree]

/-- Successful run, insertion branch: the anchor is present and no
existing line mentions the name. -/
theorem create_app_insert (n : String) (st : PyState) (T : String) (i : Nat)
    (hfresh : pathExists st ["modules", n] = false)
    (hset : readFile st settingsPath = some T)
    (hanchor : (py_splitlines T).findIdx? (fun l => l = anchorLine) = some i)
    (hdup : (py_splitlines T).any (fun line => strContains line n) = false) :
    create_app n st = (none, pushOut
      (writeFile (afterTree n st) settingsPath
        (py_join_nl (List.insertIdx (i + 1) (registration_entry n) (py_splitlines T))))
      ["✅ App registered in settings.py"]) := by
  have h3 : readFile (afterTree n st) settingsPath = some T := by
    rw [readFile_afterTree_settings]; exact hset
  rw [create_app_eq n st hfresh]
  simp [register_app_in_settings, h3, hanchor, hdup]

/-- Successful run, duplicate-guard branch: some existing line mentions
the name, so only a warning is printed. -/
theorem create_app_warn (n : String) (st : PyState) (T : String) (i : Nat)
    (hfresh : pathExists st ["modules", n] = false)
    (hset : readFile st settingsPath = some T)
    (hanchor : (py_splitlines T).findIdx? (fun l => l = anchorLine) = some i)
    (hdup : (py_splitlines T).any (fun line => strContains line n) = true) :
    create_app n st = (none, pushOut
      (pushOut (afterTree n st)
        ["\n⚠️  Warning: App '" ++ n ++ "' is already registered in settings.py"])
      ["✅ App registered in settings.py"]) := by
  have h3 : readFile (afterTree n st) settingsPath = some T := by
    rw [readFile_afterTree_settings]; exact hset
  rw [create_app_eq n st hfresh]
  simp [register_app_in_settings, h3, hanchor, hdup]

/-- Failing run: the settings document lacks the anchor line. -/
theorem create_app_anchorMissing (n : String) (st : PyState) (T : String)
    (hfresh : pathExists st ["modules", n] = false)
    (hset : readFile st settingsPath = some T)
    (hanchor : (py_splitlines T).findIdx? (fun l => l = anchorLine) = none) :
    create_app n st = (some .anchorNotFound, pushOut (afterTree n st)
      ["\n❌ Error: Failed to register app in settings: " ++ AppError.msg n .anchorNotFound,
       "\n❌ Error: Failed to create app: App registration failed: "
         ++ AppError.msg n .anchorNotFound]) := by
  have h3 : readFile (afterTree n st) settingsPath = some T := by
    rw [readFile_afterTree_settings]; exact hset
  rw [create_app_eq n st hfresh]
  simp [register_app_in_settings, h3, hanchor]

/-- Rejecting run: the target directory already exists; the state is
unchanged apart from the error print. -/
theorem create_app_already (n : String) (st : PyState)
    (h : pathExists st ["modules", n] = true) :
    (create_app n st).1 = some .alreadyExists ∧
    (create_app n st).2.files = st.files ∧ (create_app n st).2.dirs = st.dirs := by
  simp [create_app, h, pushOut]

/-! ### How `'\n'.join` and `splitlines` interact on the spliced list -/

theorem linesAux_no_newline :
    ∀ (cs acc : List Char), '\n' ∉ acc → ∀ l ∈ linesAux acc cs, '\n' ∉ l := by
  intro cs
  induction cs with
  | nil =>
    intro acc hacc l hl
    simp only [linesAux] at hl
    split at hl
    · simp at hl
    · simp only [List.mem_singleton] at hl
      subst hl
      simpa using hacc
  | cons c rest ih =>
    intro acc hacc l hl
    simp only [linesAux] at hl
    by_cases hc : c = '\n'
    · rw [if_pos hc] at hl
      rcases List.mem_cons.mp hl with h | h
      · subst h; simpa using hacc
      · exact ih [] (by simp) l h
    · rw [if_neg hc] at hl
      refine ih (c :: acc) ?_ l hl
      intro h
      rcases List.mem_cons.mp h with h | h
      · exact hc h.symm
      · exact hacc h

theorem splitlines_no_newline (T : String) :
    ∀ l ∈ py_splitlines T, '\n' ∉ l.data := by
  intro l hl
  simp only [py_splitlines, List.mem_map] at hl
  rcases hl with ⟨cs, hcs, rfl⟩
  exact linesAux_no_newline T.data [] (by simp) cs hcs

theorem joinNlChars_cons_cons (x y : List Char) (ys : List (List Char)) :
    joinNlChars (x :: y :: ys) = x ++ '\n' :: joinNlChars (y :: ys) := rfl

theorem joinNlChars_append (xs ys : List (List Char)) (hxs : xs ≠ []) (hys : ys ≠ []) :
    joinNlChars (xs ++ ys) = joinNlChars xs ++ '\n' :: joinNlChars ys := by
  induction xs with
  | nil => cases hxs rfl
  | cons x xs ih =>
    cases xs with
    | nil =>
      cases ys with
      | nil => cases hys rfl
      | cons y ys => simp [joinNlChars_cons_cons, joinNlChars]
    | cons x2 xs2 =>
      rw [List.cons_append, List.cons_append, joinNlChars_cons_cons,
        ← List.cons_append, ih (by simp), joinNlChars_cons_cons]
      simp

theorem linesAux_peel (l : List Char) (hl : '\n' ∉ l) :
    ∀ (acc rest : List Char),
      linesAux acc (l ++ '\n' :: rest) = (acc.reverse ++ l) :: linesAux [] rest := by
  induction l with
  | nil => intro acc rest; simp [linesAux]
  | cons c cs ih =>
    intro acc rest
    have hc : ¬(c = '\n') := fun h => hl (by simp [h])
    have hcs : '\n' ∉ cs := fun h => hl (by simp [h])
    rw [List.cons_append]
    simp only [linesAux, if_neg hc]
    rw [ih hcs (c :: acc) rest]
    simp

theorem linesAux_all (l : List Char) (hl : '\n' ∉ l) :
    ∀ acc, linesAux acc l =
      if (acc.reverse ++ l).isEmpty then [] else [acc.reverse ++ l] := by
  induction l with
  | nil => intro acc; simp [linesAux]
  | cons c cs ih =>
    intro acc
    have hc : ¬(c = '\n') := fun h => hl (by simp [h])
    have hcs : '\n' ∉ cs := fun h => hl (by simp [h])
    simp only [linesAux, if_neg hc]
    rw [ih hcs (c :: acc)]
    simp

theorem linesAux_join_id (L : List (List Char)) (hne : L ≠ [])
    (hnl : ∀ l ∈ L, '\n' ∉ l) (hlast : L.getLast? ≠ some []) :
    linesAux [] (joinNlChars L) = L := by
  induction L with
  | nil => cases hne rfl
  | cons x xs ih =>
    cases xs with
    | nil =>
      have hx : x ≠ [] := by
        intro h
        exact hlast (by simp [h])
      rw [show joinNlChars [x] = x from rfl, linesAux_all x (hnl x (by simp)) []]
      simp [hx]
    | cons y ys =>
      rw [joinNlChars_cons_cons, linesAux_peel x (hnl x (by simp)) [] _]
      rw [ih (by simp) (fun l hl => hnl l (by simp [hl]))
        (by rwa [List.getLast?_cons_cons] at hlast)]
      simp

theorem linesAux_peel_join (pre : List (List Char)) (rest : List Char)
    (hne : pre ≠ []) (hnl : ∀ l ∈ pre, '\n' ∉ l) :
    linesAux [] (joinNlChars pre ++ '\n' :: rest) = pre ++ linesAux [] rest := by
  induction pre with
  | nil => cases hne rfl
  | cons x xs ih =>
    cases xs with
    | nil =>
      rw [show joinNlChars [x] = x from rfl, linesAux_peel x (hnl x (by simp)) [] rest]
      simp
    | cons y ys =>
      rw [joinNlChars_cons_cons, List.append_assoc]
      rw [show ('\n' :: joinNlChars (y :: ys)) ++ '\n' :: rest
            = '\n' :: (joinNlChars (y :: ys) ++ '\n' :: rest) from rfl]
      rw [linesAux_peel x (hnl x (by simp)) []]
      rw [ih (by simp) fun l hl => hnl l (by simp [hl])]
      simp

theorem insertIdx_take_drop {α : Type} (a : α) :
    ∀ (k : Nat) (l : List α), k ≤ l.length →
      List.insertIdx k a l = l.take k ++ a :: l.drop k := by
  intro k
  induction k with
  | zero => intro l _; simp
  | succ k ih =>
    intro l hl
    cases l with
    | nil => simp at hl
    | cons x xs =>
      rw [List.insertIdx_succ_cons, ih xs (by simpa using hl)]
      simp

theorem getLast?_drop_of_lt {α : Type} (l : List α) (k : Nat) (h : k < l.length) :
    (l.drop k).getLast? = l.getLast? := by
  have hne : l.drop k ≠ [] := by
    intro hd
    have := congrArg List.length hd
    simp at this
    omega
  rcases hx : (l.drop k).getLast? with _ | x
  · exact absurd (List.getLast?_eq_none_iff.mp hx) hne
  · conv_rhs => rw [← List.take_append_drop k l]
    rw [List.getLast?_append, hx]
    rfl

theorem py_splitlines_mk (cs : List Char) :
    py_splitlines (String.mk cs) = (linesAux [] cs).map fun c => String.mk c := rfl

theorem map_mk_data (l : List String) :
    (l.map String.data).map (fun cs => String.mk cs) = l := by
  induction l with
  | nil => rfl
  | cons x xs ih => rw [List.map_cons, List.map_cons, show String.mk x.data = x from rfl, ih]

theorem joinNl_splice (pre suf : List (List Char)) (x : List Char)
    (hpre : pre ≠ []) (hsuf : suf ≠ []) :
    joinNlChars (pre ++ x :: suf)
      = joinNlChars pre ++ '\n' :: (x ++ '\n' :: joinNlChars suf) := by
  rw [show x :: suf = [x] ++ suf from rfl, joinNlChars_append pre _ hpre (by simp)]
  congr 1
  congr 1
  cases suf with
  | nil => cases hsuf rfl
  | cons y ys => rw [List.singleton_append, joinNlChars_cons_cons]

theorem linesAux_splice (pre suf : List (List Char)) (core : List Char)
    (hpre_ne : pre ≠ []) (hsuf_ne : suf ≠ [])
    (hpre_nl : ∀ l ∈ pre, '\n' ∉ l) (hsuf_nl : ∀ l ∈ suf, '\n' ∉ l)
    (hcore : '\n' ∉ core) (hlast : suf.getLast? ≠ some []) :
    linesAux [] (joinNlChars (pre ++ (core ++ ['\n']) :: suf))
      = pre ++ core :: [] :: suf := by
  rw [joinNl_splice pre suf (core ++ ['\n']) hpre_ne hsuf_ne]
  rw [linesAux_peel_join pre _ hpre_ne hpre_nl]
  rw [show (core ++ ['\n']) ++ '\n' :: joinNlChars suf
        = core ++ '\n' :: ('\n' :: joinNlChars suf) from by simp]
  rw [linesAux_peel core hcore []]
  rw [show linesAux [] ('\n' :: joinNlChars suf) = [] :: linesAux [] (joinNlChars suf)
        from by simp [linesAux]]
  rw [linesAux_join_id suf hsuf_ne hsuf_nl hlast]
  simp

/-- The effect of the settings splice at the line level: inserting
`core ++ "\n"` at position `i + 1` and re-joining yields, after
re-splitting, the original prefix, the core line, one empty line, and
the original suffix. -/
theorem splitlines_spliced (content : List String) (core : String) (i : Nat)
    (hnl : ∀ l ∈ content, '\n' ∉ l.data) (hcore : '\n' ∉ core.data)
    (hi : i + 1 < content.length)
    (hlast : content.getLast? ≠ some "") :
    py_splitlines (py_join_nl (List.insertIdx (i + 1) (core ++ "\n") content))
      = content.take (i + 1) ++ core :: "" :: content.drop (i + 1) := by
  rw [insertIdx_take_drop (core ++ "\n") (i + 1) content (le_of_lt hi)]
  unfold py_join_nl
  rw [List.map_append, List.map_cons,
    show (core ++ "\n").data = core.data ++ ['\n'] from by rw [String.data_append]]
  rw [py_splitlines_mk]
  rw [linesAux_splice ((content.take (i + 1)).map String.data)
      ((content.drop (i + 1)).map String.data) core.data
      (by
        intro h
        rw [List.map_eq_nil_iff] at h
        have hlen := congrArg List.length h
        rw [List.length_take] at hlen
        simp only [List.length_nil] at hlen
        omega)
      (by
        intro h
        rw [List.map_eq_nil_iff] at h
        have hlen := congrArg List.length h
        rw [List.length_drop] at hlen
        simp only [List.length_nil] at hlen
        omega)
      (by
        intro l hl
        rcases List.mem_map.mp hl with ⟨s, hs, rfl⟩
        exact hnl s ((List.take_sublist (i + 1) content).subset hs))
      (by
        intro l hl
        rcases List.mem_map.mp hl with ⟨s, hs, rfl⟩
        exact hnl s ((List.drop_sublist (i + 1) content).subset hs))
      hcore
      (by
        rw [List.getLast?_map, getLast?_drop_of_lt content (i + 1) hi]
        intro hbad
        rcases Option.map_eq_some'.mp hbad with ⟨s, hs, hsd⟩
        apply hlast
        rw [hs]
        cases s with
        | mk d => simp at hsd; simp [hsd])]
  rw [List.map_append, List.map_cons, List.map_cons, map_mk_data, map_mk_data]

/-! ### Character-level facts about `str.lower` and `str.isidentifier` -/

theorem isUpper_eq (c : Char) :
    c.isUpper = (decide (65 ≤ c.toNat) && decide (c.toNat ≤ 90)) := by
  unfold Char.isUpper
  congr 1

theorem isLower_eq (c : Char) :
    c.isLower = (decide (97 ≤ c.toNat) && decide (c.toNat ≤ 122)) := by
  unfold Char.isLower
  congr 1

theorem isDigit_eq (c : Char) :
    c.isDigit = (decide (48 ≤ c.toNat) && decide (c.toNat ≤ 57)) := by
  unfold Char.isDigit
  congr 1

theorem toNat_ofNat_valid (n : Nat) (h : n.isValidChar) : (Char.ofNat n).toNat = n := by
  unfold Char.ofNat
  rw [dif_pos h]
  rfl

theorem toLower_eq (c : Char) :
    c.toLower = if 65 ≤ c.toNat ∧ c.toNat ≤ 90 then Char.ofNat (c.toNat + 32) else c := rfl

theorem toLower_toNat (c : Char) :
    c.toLower.toNat = if 65 ≤ c.toNat ∧ c.toNat ≤ 90 then c.toNat + 32 else c.toNat := by
  rw [toLower_eq]
  by_cases h : 65 ≤ c.toNat ∧ c.toNat ≤ 90
  · rw [if_pos h, if_pos h, toNat_ofNat_valid _ (Or.inl (by omega))]
  · rw [if_neg h, if_neg h]

theorem char_eq_iff_toNat (c d : Char) : c = d ↔ c.toNat = d.toNat := by
  constructor
  · intro h; rw [h]
  · intro h
    rw [← Char.ofNat_toNat c, ← Char.ofNat_toNat d, h]

theorem identStart_iff (c : Char) :
    identStart c = true ↔
      (65 ≤ c.toNat ∧ c.toNat ≤ 90) ∨ (97 ≤ c.toNat ∧ c.toNat ≤ 122) ∨ c.toNat = 95 := by
  unfold identStart Char.isAlpha
  rw [isUpper_eq, isLower_eq]
  have h95 : (c = '_') ↔ c.toNat = 95 := char_eq_iff_toNat c '_'
  simp [Bool.or_eq_true, Bool.and_eq_true, decide_eq_true_eq, h95]
  tauto

theorem identCont_iff (c : Char) :
    identCont c = true ↔
      (65 ≤ c.toNat ∧ c.toNat ≤ 90) ∨ (97 ≤ c.toNat ∧ c.toNat ≤ 122) ∨
      (48 ≤ c.toNat ∧ c.toNat ≤ 57) ∨ c.toNat = 95 := by
  unfold identCont Char.isAlphanum Char.isAlpha
  rw [isUpper_eq, isLower_eq, isDigit_eq]
  have h95 : (c = '_') ↔ c.toNat = 95 := char_eq_iff_toNat c '_'
  simp [Bool.or_eq_true, Bool.and_eq_true, decide_eq_true_eq, h95]
  tauto

theorem identStart_toLower (c : Char) : identStart c.toLower = identStart c := by
  rw [Bool.eq_iff_iff, identStart_iff, identStart_iff, toLower_toNat]
  by_cases h : 65 ≤ c.toNat ∧ c.toNat ≤ 90
  · rw [if_pos h]; omega
  · rw [if_neg h]

theorem identCont_toLower (c : Char) : identCont c.toLower = identCont c := by
  rw [Bool.eq_iff_iff, identCont_iff, identCont_iff, toLower_toNat]
  by_cases h : 65 ≤ c.toNat ∧ c.toNat ≤ 90
  · rw [if_pos h]; omega
  · rw [if_neg h]

theorem all_identCont_map_toLower (l : List Char) :
    (l.map Char.toLower).all identCont = l.all identCont := by
  induction l with
  | nil => rfl
  | cons c cs ih => simp only [List.map_cons, List.all_cons, identCont_toLower, ih]

/-- Lowercasing commutes with the identifier check: `main`'s validation
of `sys.argv[1].lower()` accepts exactly the arguments whose lowercase
form (equivalently, whose original ASCII form) is an identifier. -/
theorem py_isidentifier_lower (s : String) :
    py_isidentifier (py_lower s) = py_isidentifier s := by
  cases s with
  | mk data =>
    cases data with
    | nil => rfl
    | cons c rest =>
      simp only [py_lower, py_isidentifier, List.map_cons]
      rw [identStart_toLower, all_identCont_map_toLower]

theorem toLower_toLower (c : Char) : c.toLower.toLower = c.toLower := by
  by_cases h : 65 ≤ c.toNat ∧ c.toNat ≤ 90
  · rw [toLower_eq c.toLower, if_neg]
    rw [toLower_toNat, if_pos h]
    omega
  · rw [toLower_eq c, if_neg h, toLower_eq c, if_neg h]

theorem py_lower_idem (s : String) : py_lower (py_lower s) = py_lower s := by
  cases s with
  | mk data =>
    simp only [py_lower, List.map_map]
    congr 1
    apply List.map_congr_left
    intro c _
    exact toLower_toLower c

theorem ident_no_newline (s : String) (h : py_isidentifier s = true) : '\n' ∉ s.data := by
  cases s with
  | mk data =>
    cases data with
    | nil => simp
    | cons c rest =>
      simp only [py_isidentifier] at h
      rw [Bool.and_eq_true] at h
      intro hmem
      rcases List.mem_cons.mp hmem with hc | hmem
      · rw [← hc] at h
        exact absurd h.1 (by decide)
      · have := List.all_eq_true.mp h.2 _ hmem
        exact absurd this (by decide)

/-- The Registration Entry without its trailing newline: the line that
actually shows up in the rewritten settings document. -/
def registration_core (app_name : String) : String :=
  "    'modules." ++ app_name ++ ".apps." ++ py_capitalize app_name ++ "Config',"

theorem registration_entry_eq (n : String) :
    registration_entry n = registration_core n ++ "\n" := by
  unfold registration_entry registration_core
  rw [show ("Config',\n" : String) = "Config'," ++ "\n" from rfl]
  rw [← String.append_assoc]

theorem registration_core_data (n : String) :
    (registration_core n).data
      = "    'modules.".data ++ n.data ++ ".apps.".data
          ++ (py_capitalize n).data ++ "Config',".data := by
  simp [registration_core, String.data_append]

theorem registration_core_ne_empty (n : String) : registration_core n ≠ "" := by
  intro h
  have hd := congrArg String.data h
  rw [registration_core_data] at hd
  simp at hd

theorem strContains_registration_core (n : String) :
    strContains (registration_core n) n = true := by
  apply decide_eq_true
  rw [registration_core_data]
  exact ⟨"    'modules.".data,
    ".apps.".data ++ (py_capitalize n).data ++ "Config',".data, by simp⟩

theorem toUpper_eq (c : Char) :
    c.toUpper = if 97 ≤ c.toNat ∧ c.toNat ≤ 122 then Char.ofNat (c.toNat - 32) else c := rfl

theorem toUpper_toNat (c : Char) :
    c.toUpper.toNat = if 97 ≤ c.toNat ∧ c.toNat ≤ 122 then c.toNat - 32 else c.toNat := by
  rw [toUpper_eq]
  by_cases h : 97 ≤ c.toNat ∧ c.toNat ≤ 122
  · rw [if_pos h, if_pos h, toNat_ofNat_valid _ (Or.inl (by omega))]
  · rw [if_neg h, if_neg h]

theorem toUpper_ne_newline (c : Char) (h : c ≠ '\n') : c.toUpper ≠ '\n' := by
  intro he
  apply h
  rw [char_eq_iff_toNat] at he ⊢
  rw [toUpper_toNat, show ('\n').toNat = 10 from rfl] at he
  rw [show ('\n').toNat = 10 from rfl]
  by_cases hb : 97 ≤ c.toNat ∧ c.toNat ≤ 122
  · rw [if_pos hb] at he; omega
  · rw [if_neg hb] at he; exact he

theorem toLower_ne_newline (c : Char) (h : c ≠ '\n') : c.toLower ≠ '\n' := by
  intro he
  apply h
  rw [char_eq_iff_toNat] at he ⊢
  rw [toLower_toNat, show ('\n').toNat = 10 from rfl] at he
  rw [show ('\n').toNat = 10 from rfl]
  by_cases hb : 65 ≤ c.toNat ∧ c.toNat ≤ 90
  · rw [if_pos hb] at he; omega
  · rw [if_neg hb] at he; exact he

theorem capitalize_no_newline (n : String) (h : '\n' ∉ n.data) :
    '\n' ∉ (py_capitalize n).data := by
  cases n with
  | mk data =>
    cases data with
    | nil => simp [py_capitalize]
    | cons c rest =>
      simp only [py_capitalize]
      intro hc
      rcases List.mem_cons.mp hc with hc | hc
      · exact toUpper_ne_newline c (fun he => h (by simp [he])) hc.symm
      · rcases List.mem_map.mp hc with ⟨d, hdmem, hde⟩
        refine toLower_ne_newline d (fun he => h ?_) hde
        rw [he] at hdmem
        simp [hdmem]

theorem registration_core_no_newline (n : String) (h : '\n' ∉ n.data) :
    '\n' ∉ (registration_core n).data := by
  rw [registration_core_data]
  intro hc
  simp only [List.mem_append] at hc
  rcases hc with ((((hc | hc) | hc) | hc) | hc)
  · exact absurd hc (by decide)
  · exact h hc
  · exact absurd hc (by decide)
  · exact capitalize_no_newline n h hc
  · exact absurd hc (by decide)

/-- Any run started on a fresh target with a readable settings document
containing the anchor line terminates without error and leaves the full
Structure Template materialized (both the insertion and the
duplicate-warning branch register as success in the source). -/
theorem create_app_success_spec (n : String) (st : PyState) (T : String) (i : Nat)
    (hfresh : pathExists st ["modules", n] = false)
    (hset : readFile st settingsPath = some T)
    (hanchor : (py_splitlines T).findIdx? (fun l => l = anchorLine) = some i) :
    (create_app n st).1 = none ∧
    structureMaterialized n (create_app n st).2 = true := by
  cases hdup : (py_splitlines T).any fun line => strContains line n with
  | false =>
    rw [create_app_insert n st T i hfresh hset hanchor hdup]
    refine ⟨rfl, ?_⟩
    simp only [structureMaterialized_pushOut, structureMaterialized_writeSettings]
    exact afterTree_materialized n st
  | true =>
    rw [create_app_warn n st T i hfresh hset hanchor hdup]
    refine ⟨rfl, ?_⟩
    simp only [structureMaterialized_pushOut]
    exact afterTree_materialized n st

theorem appsfile_mem_flatten (n : String) :
    ((["modules", n, "apps.py"], some (generate_app_config n)) :
        List String × Option String)
      ∈ flattenNode ["modules", n] (.dir (get_app_structure n)) := by
  simp [flattenNode, flattenChildren, get_app_structure]

theorem rootdir_mem_flatten (n : String) :
    ((["modules", n], (none : Option String)) : List String × Option String)
      ∈ flattenNode ["modules", n] (.dir (get_app_structure n)) := by
  simp [flattenNode, flattenChildren, get_app_structure]

/-- The generated `apps.py` content contains the configuration class
header `class <Capitalized>Config`. -/
theorem appconfig_contains_class (n : String) :
    strContains (generate_app_config n) ("class " ++ py_capitalize n ++ "Config") = true := by
  apply decide_eq_true
  have h1 : ("from django.apps import AppConfig\n\nclass " : String).data
      = "from django.apps import AppConfig\n\n".data ++ "class ".data := rfl
  have h2 : ("Config(AppConfig):\n    default_auto_field = 'django.db.models.BigAutoField'\n    label = '" : String).data
      = "Config".data ++ "(AppConfig):\n    default_auto_field = 'django.db.models.BigAutoField'\n    label = '".data := rfl
  refine ⟨"from django.apps import AppConfig\n\n".data,
    "(AppConfig):\n    default_auto_field = 'django.db.models.BigAutoField'\n    label = '".data
      ++ n.data ++ "'\n    name = 'modules.".data ++ n.data ++ "'\n".data, ?_⟩
  simp [generate_app_config, String.data_append, h1, h2]

/-- After the splice, the registration line occurs exactly once among
the settings lines, provided no original line mentioned the name. -/
theorem count_core_once (content : List String) (n : String) (i : Nat)
    (hdup : content.any (fun line => strContains line n) = false) :
    (content.take (i + 1) ++ registration_core n :: "" :: content.drop (i + 1)).count
      (registration_core n) = 1 := by
  have hni : ∀ l ∈ content, ¬(l = registration_core n) := by
    intro l hl he
    have hall := List.any_eq_false.mp hdup l hl
    rw [he] at hall
    exact hall (strContains_registration_core n)
  have h1 : (content.take (i + 1)).count (registration_core n) = 0 :=
    List.count_eq_zero.mpr fun hmem => hni _ ((List.take_sublist _ _).subset hmem) rfl
  have h2 : (content.drop (i + 1)).count (registration_core n) = 0 :=
    List.count_eq_zero.mpr fun hmem => hni _ ((List.drop_sublist _ _).subset hmem) rfl
  rw [List.count_append, h1, List.count_cons_self,
    List.count_cons_of_ne (registration_core_ne_empty n), h2]

theorem linesAux_join_general (L : List (List Char)) (hne : L ≠ [])
    (hnl : ∀ l ∈ L, '\n' ∉ l) :
    linesAux [] (joinNlChars L) = if L.getLast? = some [] then L.dropLast else L := by
  induction L with
  | nil => cases hne rfl
  | cons x xs ih =>
    cases xs with
    | nil =>
      rw [show joinNlChars [x] = x from rfl, linesAux_all x (hnl x (by simp)) []]
      by_cases hx : x = []
      · subst hx
        simp
      · rw [if_neg (by simp [hx]), if_neg (by simp [hx])]
        simp
    | cons y ys =>
      rw [joinNlChars_cons_cons, linesAux_peel x (hnl x (by simp)) []]
      rw [ih (by simp) fun l hl => hnl l (by simp [hl])]
      rw [List.getLast?_cons_cons]
      by_cases hl : (y :: ys).getLast? = some ([] : List Char)
      · rw [if_pos hl, if_pos hl]
        simp
      · rw [if_neg hl, if_neg hl]
        simp

/-- The general splice: inserting `core ++ "\n"` after a nonempty
prefix and re-splitting, with no assumption on the suffix.  An empty
suffix (anchor on the last line) yields no blank line; a suffix whose
last line is empty loses that line to the missing final separator. -/
theorem linesAux_splice_general (pre suf : List (List Char)) (core : List Char)
    (hpre_ne : pre ≠ [])
    (hpre_nl : ∀ l ∈ pre, '\n' ∉ l) (hsuf_nl : ∀ l ∈ suf, '\n' ∉ l)
    (hcore : '\n' ∉ core) :
    linesAux [] (joinNlChars (pre ++ (core ++ ['\n']) :: suf))
      = pre ++ core ::
          (if suf = [] then []
           else [] :: (if suf.getLast? = some [] then suf.dropLast else suf)) := by
  by_cases hsuf : suf = []
  · subst hsuf
    rw [if_pos rfl]
    rw [show (core ++ ['\n']) :: ([] : List (List Char)) = [core ++ ['\n']] from rfl]
    rw [joinNlChars_append pre _ hpre_ne (by simp)]
    rw [show joinNlChars [core ++ ['\n']] = core ++ ['\n'] from rfl]
    rw [linesAux_peel_join pre _ hpre_ne hpre_nl]
    rw [show core ++ ['\n'] = core ++ '\n' :: [] from rfl]
    rw [linesAux_peel core hcore []]
    simp [linesAux]
  · rw [if_neg hsuf]
    rw [joinNl_splice pre suf _ hpre_ne hsuf]
    rw [linesAux_peel_join pre _ hpre_ne hpre_nl]
    rw [show (core ++ ['\n']) ++ '\n' :: joinNlChars suf
          = core ++ '\n' :: ('\n' :: joinNlChars suf) from by simp]
    rw [linesAux_peel core hcore []]
    rw [show linesAux [] ('\n' :: joinNlChars suf) = [] :: linesAux [] (joinNlChars suf)
          from by simp [linesAux]]
    rw [linesAux_join_general suf hsuf hsuf_nl]
    simp

/-- String-level general splice, with no assumption on where the anchor
sits or on the document's last line. -/
theorem splitlines_spliced_general (content : List String) (core : String) (i : Nat)
    (hnl : ∀ l ∈ content, '\n' ∉ l.data) (hcore : '\n' ∉ core.data)
    (hle : i + 1 ≤ content.length) :
    py_splitlines (py_join_nl (List.insertIdx (i + 1) (core ++ "\n") content))
      = content.take (i + 1) ++ core ::
          (if content.drop (i + 1) = [] then []
           else "" :: (if (content.drop (i + 1)).getLast? = some ""
                       then (content.drop (i + 1)).dropLast
                       else content.drop (i + 1))) := by
  rw [insertIdx_take_drop (core ++ "\n") (i + 1) content hle]
  unfold py_join_nl
  rw [List.map_append, List.map_cons,
    show (core ++ "\n").data = core.data ++ ['\n'] from by rw [String.data_append]]
  rw [py_splitlines_mk]
  rw [linesAux_splice_general ((content.take (i + 1)).map String.data)
      ((content.drop (i + 1)).map String.data) core.data
      (by
        intro h
        rw [List.map_eq_nil_iff] at h
        have hlen := congrArg List.length h
        rw [List.length_take] at hlen
        simp only [List.length_nil] at hlen
        omega)
      (by
        intro l hl
        rcases List.mem_map.mp hl with ⟨s, hs, rfl⟩
        exact hnl s ((List.take_sublist (i + 1) content).subset hs))
      (by
        intro l hl
        rcases List.mem_map.mp hl with ⟨s, hs, rfl⟩
        exact hnl s ((List.drop_sublist (i + 1) content).subset hs))
      hcore]
  by_cases hdropnil : content.drop (i + 1) = []
  · rw [if_pos (by rw [hdropnil]; rfl), if_pos hdropnil]
    rw [List.map_append, List.map_cons, List.map_nil, map_mk_data]
  · rw [if_neg (fun h => hdropnil (List.map_eq_nil_iff.mp h)), if_neg hdropnil]
    by_cases hlast : (content.drop (i + 1)).getLast? = some ""
    · rw [if_pos (by rw [List.getLast?_map, hlast]; rfl), if_pos hlast]
      rw [List.map_append, List.map_cons, List.map_cons, map_mk_data]
      rw [show ((content.drop (i + 1)).map String.data).dropLast
            = ((content.drop (i + 1)).dropLast).map String.data
          from (List.map_dropLast String.data (content.drop (i + 1))).symm]
      rw [map_mk_data]
    · rw [if_neg ?later, if_neg hlast]
      · rw [List.map_append, List.map_cons, List.map_cons, map_mk_data, map_mk_data]
      case later =>
        rw [List.getLast?_map]
        intro hbad
        rcases Option.map_eq_some'.mp hbad with ⟨s, hs, hsd⟩
        apply hlast
        rw [hs]
        cases s with
        | mk d => simp at hsd; simp [hsd]

/-- The registration line occurs exactly once in the spliced document,
whatever the anchor position and the document's final line. -/
theorem count_core_once_general (content : List String) (n : String) (i : Nat)
    (hdup : content.any (fun line => strContains line n) = false) :
    (content.take (i + 1) ++ registration_core n ::
        (if content.drop (i + 1) = [] then []
         else "" :: (if (content.drop (i + 1)).getLast? = some ""
                     then (content.drop (i + 1)).dropLast
                     else content.drop (i + 1)))).count
      (registration_core n) = 1 := by
  have hni : ∀ l ∈ content, ¬(l = registration_core n) := by
    intro l hl he
    have hall := List.any_eq_false.mp hdup l hl
    rw [he] at hall
    exact hall (strContains_registration_core n)
  have h1 : (content.take (i + 1)).count (registration_core n) = 0 :=
    List.count_eq_zero.mpr fun hmem => hni _ ((List.take_sublist _ _).subset hmem) rfl
  have h2 : (content.drop (i + 1)).count (registration_core n) = 0 :=
    List.count_eq_zero.mpr fun hmem => hni _ ((List.drop_sublist _ _).subset hmem) rfl
  have h3 : ((content.drop (i + 1)).dropLast).count (registration_core n) = 0 :=
    List.count_eq_zero.mpr fun hmem =>
      hni _ ((List.drop_sublist _ _).subset ((List.dropLast_sublist _).subset hmem)) rfl
  rw [List.count_append, h1, List.count_cons_self]
  by_cases hd : content.drop (i + 1) = []
  · rw [if_pos hd]
    rfl
  · rw [if_neg hd, List.count_cons_of_ne (registration_core_ne_empty n)]
    by_cases hl : (content.drop (i + 1)).getLast? = some ""
    · rw [if_pos hl, h3]
    · rw [if_neg hl, h2]

/-- A minimal project state: no directories, no output, and a settings
document with content `T`. -/
def initState (T : String) : PyState :=
  { dirs := [], files := [(settingsPath, T)], out := [] }

/-- C1: for every valid identifier `n` with `modules/<n>` absent and a
settings document containing the anchor line, `CreateModule(n)` succeeds;
afterwards every path of the Structure Template exists under
`modules/<n>` with exactly the template's content for leaf files, and
`apps.py` holds the configuration class `capitalize(n) ++ "Config"`. -/
theorem C1_scaffold_success (n : String) (st : PyState) (T : String) (i : Nat)
    (hv : py_isidentifier n = true)
    (hfresh : pathExists st ["modules", n] = false)
    (hset : readFile st settingsPath = some T)
    (hanchor : (py_splitlines T).findIdx? (fun l => l = anchorLine) = some i) :
    (create_app n st).1 = none ∧
    structureMaterialized n (create_app n st).2 = true ∧
    readFile (create_app n st).2 ["modules", n, "apps.py"]
      = some (generate_app_config n) ∧
    strContains (generate_app_config n)
      ("class " ++ py_capitalize n ++ "Config") = true := by
  obtain ⟨hok, hmat⟩ := create_app_success_spec n st T i hfresh hset hanchor
  exact ⟨hok, hmat,
    materialized_readFile n _ _ _ hmat (appsfile_mem_flatten n),
    appconfig_contains_class n⟩

theorem C1_scaffold_success_witness :
    (create_app "billing" (initState "LOCAL_APPS = [\n]")).1 = none ∧
    structureMaterialized "billing"
      (create_app "billing" (initState "LOCAL_APPS = [\n]")).2 = true ∧
    readFile (create_app "billing" (initState "LOCAL_APPS = [\n]")).2
      ["modules", "billing", "apps.py"] = some (generate_app_config "billing") ∧
    strContains (generate_app_config "billing")
      ("class " ++ py_capitalize "billing" ++ "Config") = true :=
  C1_scaffold_success "billing" (initState "LOCAL_APPS = [\n]") "LOCAL_APPS = [\n]" 0
    (by decide) (by decide) (by decide) (by decide)

/-- C3: if the settings document exists but lacks the anchor line,
`CreateModule(n)` fails with `AnchorNotFound`, and the scaffold tree
already created under `modules/<n>` remains materialized on disk (no
rollback). -/
theorem C3_anchor_missing_no_rollback (n : String) (st : PyState) (T : String)
    (hfresh : pathExists st ["modules", n] = false)
    (hset : readFile st settingsPath = some T)
    (hanchor : (py_splitlines T).findIdx? (fun l => l = anchorLine) = none) :
    (create_app n st).1 = some .anchorNotFound ∧
    structureMaterialized n (create_app n st).2 = true := by
  rw [create_app_anchorMissing n st T hfresh hset hanchor]
  refine ⟨rfl, ?_⟩
  simp only [structureMaterialized_pushOut]
  exact afterTree_materialized n st

theorem C3_anchor_missing_no_rollback_witness :
    (create_app "billing" (initState "INSTALLED_APPS = []")).1
      = some .anchorNotFound ∧
    structureMaterialized "billing"
      (create_app "billing" (initState "INSTALLED_APPS = []")).2 = true :=
  C3_anchor_missing_no_rollback "billing" (initState "INSTALLED_APPS = []")
    "INSTALLED_APPS = []" (by decide) (by decide) (by decide)

/-- C5: a non-identifier argument (spaces, leading digit, empty, ...)
makes the CLI exit with status 1 after the invalid-name message, with no
filesystem write at all. -/
theorem C5_invalid_name_no_writes (prog s : String) (st : PyState)
    (h : py_isidentifier s = false) :
    (py_main [prog, s] st).1 = 1 ∧
    (py_main [prog, s] st).2.files = st.files ∧
    (py_main [prog, s] st).2.dirs = st.dirs ∧
    "App name must be a valid Python identifier" ∈ (py_main [prog, s] st).2.out := by
  have hlow : py_isidentifier (py_lower s) = false := by
    rw [py_isidentifier_lower]; exact h
  simp [py_main, hlow, pushOut]

theorem C5_invalid_name_no_writes_witness :
    py_isidentifier "9 billing" = false ∧
    ((py_main ["create_module.py", "9 billing"] (initState "LOCAL_APPS = [\n]")).1 = 1 ∧
     (py_main ["create_module.py", "9 billing"] (initState "LOCAL_APPS = [\n]")).2.files
       = (initState "LOCAL_APPS = [\n]").files ∧
     (py_main ["create_module.py", "9 billing"] (initState "LOCAL_APPS = [\n]")).2.dirs
       = (initState "LOCAL_APPS = [\n]").dirs ∧
     "App name must be a valid Python identifier"
       ∈ (py_main ["create_module.py", "9 billing"] (initState "LOCAL_APPS = [\n]")).2.out) :=
  ⟨by decide, C5_invalid_name_no_writes "create_module.py" "9 billing"
    (initState "LOCAL_APPS = [\n]") (by decide)⟩

/-- C6: when some existing settings line already mentions the module
name as a substring (checked after the anchor is located), the run
prints a warning, still succeeds, and leaves the settings document
byte-identical. -/
theorem C6_duplicate_mention_warns (n : String) (st : PyState) (T : String) (i : Nat)
    (hfresh : pathExists st ["modules", n] = false)
    (hset : readFile st settingsPath = some T)
    (hanchor : (py_splitlines T).findIdx? (fun l => l = anchorLine) = some i)
    (hdup : (py_splitlines T).any (fun line => strContains line n) = true) :
    (create_app n st).1 = none ∧
    readFile (create_app n st).2 settingsPath = some T ∧
    ("\n⚠️  Warning: App '" ++ n ++ "' is already registered in settings.py")
      ∈ (create_app n st).2.out := by
  rw [create_app_warn n st T i hfresh hset hanchor hdup]
  refine ⟨rfl, ?_, ?_⟩
  · simp only [readFile_pushOut]
    rw [readFile_afterTree_settings]
    exact hset
  · simp [pushOut]

theorem C6_duplicate_mention_warns_witness :
    (create_app "billing"
      (initState "LOCAL_APPS = [\n    'modules.billing.apps.BillingConfig',\n]")).1
      = none ∧
    readFile (create_app "billing"
      (initState "LOCAL_APPS = [\n    'modules.billing.apps.BillingConfig',\n]")).2
      settingsPath
      = some "LOCAL_APPS = [\n    'modules.billing.apps.BillingConfig',\n]" ∧
    ("\n⚠️  Warning: App '" ++ "billing" ++ "' is already registered in settings.py")
      ∈ (create_app "billing"
          (initState "LOCAL_APPS = [\n    'modules.billing.apps.BillingConfig',\n]")).2.out :=
  C6_duplicate_mention_warns "billing"
    (initState "LOCAL_APPS = [\n    'modules.billing.apps.BillingConfig',\n]")
    "LOCAL_APPS = [\n    'modules.billing.apps.BillingConfig',\n]" 0
    (by decide) (by decide) (by decide) (by decide)

/-- C9: any argument vector without exactly one positional argument
makes the CLI exit with status 1 after printing the usage message, with
no filesystem mutation. -/
theorem C9_wrong_arity_usage (argv : List String) (st : PyState)
    (h : (argv.drop 1).length ≠ 1) :
    (py_main argv st).1 = 1 ∧
    (py_main argv st).2.files = st.files ∧
    (py_main argv st).2.dirs = st.dirs ∧
    "Usage: python create_app.py <app_name>" ∈ (py_main argv st).2.out := by
  cases argv with
  | nil => simp [py_main, pushOut, usageLines]
  | cons a rest =>
    cases rest with
    | nil => simp [py_main, pushOut, usageLines]
    | cons b rest2 =>
      cases rest2 with
      | nil => exact absurd rfl h
      | cons c rest3 => simp [py_main, pushOut, usageLines]

theorem C9_wrong_arity_usage_witness :
    (py_main ["create_module.py"] (initState "LOCAL_APPS = [\n]")).1 = 1 ∧
    (py_main ["create_module.py"] (initState "LOCAL_APPS = [\n]")).2.files
      = (initState "LOCAL_APPS = [\n]").files ∧
    (py_main ["create_module.py"] (initState "LOCAL_APPS = [\n]")).2.dirs
      = (initState "LOCAL_APPS = [\n]").dirs ∧
    "Usage: python create_app.py <app_name>"
      ∈ (py_main ["create_module.py"] (initState "LOCAL_APPS = [\n]")).2.out :=
  C9_wrong_arity_usage ["create_module.py"] (initState "LOCAL_APPS = [\n]") (by decide)

set_option maxRecDepth 4000 in
/-- C10: the CLI lowercases its argument before validation and creation:
its behaviour on `s` equals its behaviour on `s.lower()`, validation
accepts `s` exactly when `s.lower()` is an identifier, and the concrete
argument `Billing` creates `modules/billing`, never `modules/Billing`. -/
theorem C10_argument_lowercased (prog s : String) (st : PyState) :
    py_main [prog, s] st = py_main [prog, py_lower s] st ∧
    py_isidentifier (py_lower s) = py_isidentifier s ∧
    (py_main ["create_module.py", "Billing"] (initState "LOCAL_APPS = [\n]")).1 = 0 ∧
    dirExists (py_main ["create_module.py", "Billing"] (initState "LOCAL_APPS = [\n]")).2
      ["modules", "billing"] = true ∧
    dirExists (py_main ["create_module.py", "Billing"] (initState "LOCAL_APPS = [\n]")).2
      ["modules", "Billing"] = false ∧
    readFile (py_main ["create_module.py", "Billing"] (initState "LOCAL_APPS = [\n]")).2
      ["modules", "billing", "apps.py"] = some (generate_app_config "billing") := by
  refine ⟨?_, py_isidentifier_lower s, by decide, by decide, by decide, by decide⟩
  simp only [py_main]
  rw [py_lower_idem]

set_option maxRecDepth 4000 in
/-- C2 counterexample: on a concrete fresh run the settings document
gains two lines (the registration line plus an empty line produced by
the entry's trailing newline), not exactly one. -/
theorem C2_counterexample_gains_two_lines :
    (create_app "billing" (initState "LOCAL_APPS = [\n]")).1 = none ∧
    readFile (create_app "billing" (initState "LOCAL_APPS = [\n]")).2 settingsPath
      = some "LOCAL_APPS = [\n    'modules.billing.apps.BillingConfig',\n\n]" ∧
    (py_splitlines "LOCAL_APPS = [\n    'modules.billing.apps.BillingConfig',\n\n]").length
      = (py_splitlines "LOCAL_APPS = [\n]").length + 2 ∧
    ¬((py_splitlines "LOCAL_APPS = [\n    'modules.billing.apps.BillingConfig',\n\n]").length
      = (py_splitlines "LOCAL_APPS = [\n]").length + 1) :=
  ⟨by decide, by decide, by decide, by decide⟩

/-- C2 (amended): on a successful insertion run (anchor present at
index `i` and not the last line, no line mentioning the name, last line
nonempty), the settings document is rewritten in full as the lines
joined by newlines with the Registration Entry spliced in after the
anchor; because the entry carries a trailing newline the document gains
the registration line at index `i + 1` plus one empty line after it,
and the registration line appears exactly once. -/
theorem C2_registration_line_layout (n : String) (st : PyState) (T : String) (i : Nat)
    (hv : py_isidentifier n = true)
    (hfresh : pathExists st ["modules", n] = false)
    (hset : readFile st settingsPath = some T)
    (hanchor : (py_splitlines T).findIdx? (fun l => l = anchorLine) = some i)
    (hdup : (py_splitlines T).any (fun line => strContains line n) = false)
    (hi : i + 1 < (py_splitlines T).length)
    (hlast : (py_splitlines T).getLast? ≠ some "") :
    (create_app n st).1 = none ∧
    readFile (create_app n st).2 settingsPath
      = some (py_join_nl
          (List.insertIdx (i + 1) (registration_entry n) (py_splitlines T))) ∧
    py_splitlines (py_join_nl
        (List.insertIdx (i + 1) (registration_entry n) (py_splitlines T)))
      = (py_splitlines T).take (i + 1)
          ++ registration_core n :: "" :: (py_splitlines T).drop (i + 1) ∧
    ((py_splitlines T).take (i + 1)
        ++ registration_core n :: "" :: (py_splitlines T).drop (i + 1))[i]?
      = some anchorLine ∧
    ((py_splitlines T).take (i + 1)
        ++ registration_core n :: "" :: (py_splitlines T).drop (i + 1))[i + 1]?
      = some (registration_core n) ∧
    ((py_splitlines T).take (i + 1)
        ++ registration_core n :: "" :: (py_splitlines T).drop (i + 1)).count
      (registration_core n) = 1 := by
  have heq := create_app_insert n st T i hfresh hset hanchor hdup
  have hsplice : py_splitlines (py_join_nl
      (List.insertIdx (i + 1) (registration_entry n) (py_splitlines T)))
      = (py_splitlines T).take (i + 1)
          ++ registration_core n :: "" :: (py_splitlines T).drop (i + 1) := by
    rw [registration_entry_eq]
    exact splitlines_spliced (py_splitlines T) (registration_core n) i
      (splitlines_no_newline T)
      (registration_core_no_newline n (ident_no_newline n hv)) hi hlast
  have hico := List.findIdx?_eq_some_iff_getElem.mp hanchor
  rcases hico with ⟨hilen, hpi, _⟩
  have hanchor_at : (py_splitlines T)[i]? = some anchorLine := by
    rw [List.getElem?_eq_getElem hilen]
    simpa using hpi
  have hprelen : ((py_splitlines T).take (i + 1)).length = i + 1 := by
    rw [List.length_take]
    omega
  refine ⟨by rw [heq], ?_, hsplice, ?_, ?_, count_core_once (py_splitlines T) n i hdup⟩
  · rw [heq, readFile_pushOut, readFile_writeFile, if_pos rfl]
  · rw [List.getElem?_append_left (by rw [hprelen]; omega)]
    rw [List.getElem?_take, if_pos (by omega)]
    exact hanchor_at
  · rw [List.getElem?_append_right (by rw [hprelen]), hprelen]
    simp

theorem C2_registration_line_layout_witness :
    (create_app "billing" (initState "LOCAL_APPS = [\n]")).1 = none ∧
    readFile (create_app "billing" (initState "LOCAL_APPS = [\n]")).2 settingsPath
      = some (py_join_nl
          (List.insertIdx (0 + 1) (registration_entry "billing")
            (py_splitlines "LOCAL_APPS = [\n]"))) ∧
    py_splitlines (py_join_nl
        (List.insertIdx (0 + 1) (registration_entry "billing")
          (py_splitlines "LOCAL_APPS = [\n]")))
      = (py_splitlines "LOCAL_APPS = [\n]").take (0 + 1)
          ++ registration_core "billing" :: ""
              :: (py_splitlines "LOCAL_APPS = [\n]").drop (0 + 1) ∧
    ((py_splitlines "LOCAL_APPS = [\n]").take (0 + 1)
        ++ registration_core "billing" :: ""
            :: (py_splitlines "LOCAL_APPS = [\n]").drop (0 + 1))[0]?
      = some anchorLine ∧
    ((py_splitlines "LOCAL_APPS = [\n]").take (0 + 1)
        ++ registration_core "billing" :: ""
            :: (py_splitlines "LOCAL_APPS = [\n]").drop (0 + 1))[0 + 1]?
      = some (registration_core "billing") ∧
    ((py_splitlines "LOCAL_APPS = [\n]").take (0 + 1)
        ++ registration_core "billing" :: ""
            :: (py_splitlines "LOCAL_APPS = [\n]").drop (0 + 1)).count
      (registration_core "billing") = 1 :=
  C2_registration_line_layout "billing" (initState "LOCAL_APPS = [\n]")
    "LOCAL_APPS = [\n]" 0 (by decide) (by decide) (by decide) (by decide)
    (by decide) (by decide) (by decide)

/-- C4: when `modules/<n>` already exists, `CreateModule(n)` fails with
`AlreadyExists` leaving directories, files and the settings document
untouched; hence for a fresh `n` the first call succeeds, the second
fails with `AlreadyExists`, and the registration line appears exactly
once in the settings document. -/
theorem C4_already_exists_rejection (n : String) (st st0 : PyState) (T : String) (i : Nat)
    (hv : py_isidentifier n = true)
    (hex : pathExists st0 ["modules", n] = true)
    (hfresh : pathExists st ["modules", n] = false)
    (hset : readFile st settingsPath = some T)
    (hanchor : (py_splitlines T).findIdx? (fun l => l = anchorLine) = some i)
    (hdup : (py_splitlines T).any (fun line => strContains line n) = false) :
    ((create_app n st0).1 = some .alreadyExists ∧
      (create_app n st0).2.files = st0.files ∧
      (create_app n st0).2.dirs = st0.dirs) ∧
    (create_app n st).1 = none ∧
    (create_app n (create_app n st).2).1 = some .alreadyExists ∧
    (create_app n (create_app n st).2).2.files = (create_app n st).2.files ∧
    (create_app n (create_app n st).2).2.dirs = (create_app n st).2.dirs ∧
    (py_splitlines ((readFile (create_app n st).2 settingsPath).getD "")).count
      (registration_core n) = 1 := by
  obtain ⟨hok, hmat⟩ := create_app_success_spec n st T i hfresh hset hanchor
  have hdir := materialized_dirExists n _ _ hmat (rootdir_mem_flatten n)
  have hex2 : pathExists (create_app n st).2 ["modules", n] = true := by
    simp [pathExists, hdir]
  have heq := create_app_insert n st T i hfresh hset hanchor hdup
  have hone := create_app_already n (create_app n st).2 hex2
  have hzero := create_app_already n st0 hex
  have hread : readFile (create_app n st).2 settingsPath
      = some (py_join_nl
          (List.insertIdx (i + 1) (registration_entry n) (py_splitlines T))) := by
    rw [heq, readFile_pushOut, readFile_writeFile, if_pos rfl]
  obtain ⟨hilen, -, -⟩ := List.findIdx?_eq_some_iff_getElem.mp hanchor
  refine ⟨⟨hzero.1, hzero.2.1, hzero.2.2⟩, hok, hone.1, hone.2.1, hone.2.2, ?_⟩
  rw [hread]
  simp only [Option.getD_some]
  rw [registration_entry_eq,
    splitlines_spliced_general (py_splitlines T) (registration_core n) i
      (splitlines_no_newline T)
      (registration_core_no_newline n (ident_no_newline n hv)) (by omega)]
  exact count_core_once_general (py_splitlines T) n i hdup

theorem C4_already_exists_rejection_witness :
    ((create_app "billing"
        { dirs := [["modules", "billing"]], files := [], out := [] }).1
        = some .alreadyExists ∧
      (create_app "billing"
        { dirs := [["modules", "billing"]], files := [], out := [] }).2.files
        = ({ dirs := [["modules", "billing"]], files := [], out := [] } : PyState).files ∧
      (create_app "billing"
        { dirs := [["modules", "billing"]], files := [], out := [] }).2.dirs
        = ({ dirs := [["modules", "billing"]], files := [], out := [] } : PyState).dirs) ∧
    (create_app "billing" (initState "LOCAL_APPS = [\n]")).1 = none ∧
    (create_app "billing" (create_app "billing" (initState "LOCAL_APPS = [\n]")).2).1
      = some .alreadyExists ∧
    (create_app "billing" (create_app "billing" (initState "LOCAL_APPS = [\n]")).2).2.files
      = (create_app "billing" (initState "LOCAL_APPS = [\n]")).2.files ∧
    (create_app "billing" (create_app "billing" (initState "LOCAL_APPS = [\n]")).2).2.dirs
      = (create_app "billing" (initState "LOCAL_APPS = [\n]")).2.dirs ∧
    (py_splitlines ((readFile (create_app "billing" (initState "LOCAL_APPS = [\n]")).2
        settingsPath).getD "")).count (registration_core "billing") = 1 :=
  C4_already_exists_rejection "billing" (initState "LOCAL_APPS = [\n]")
    { dirs := [["modules", "billing"]], files := [], out := [] }
    "LOCAL_APPS = [\n]" 0 (by decide) (by decide) (by decide) (by decide)
    (by decide) (by decide)

/-- C7: after a successful run, every directory declared by the
Structure Template under `modules/<n>` (the module root included)
contains a package-marker file `__init__.py`, empty unless the template
supplies content (only `models/__init__.py` does). -/
theorem C7_package_marker_files (n : String) (st : PyState) (T : String) (i : Nat)
    (p : List String)
    (hfresh : pathExists st ["modules", n] = false)
    (hset : readFile st settingsPath = some T)
    (hanchor : (py_splitlines T).findIdx? (fun l => l = anchorLine) = some i)
    (hp : (p, (none : Option String))
        ∈ flattenNode ["modules", n] (.dir (get_app_structure n))) :
    (create_app n st).1 = none ∧
    ∃ c, readFile (create_app n st).2 (p ++ ["__init__.py"]) = some c ∧
      (p ≠ ["modules", n, "models"] → c = "") := by
  obtain ⟨hok, hmat⟩ := create_app_success_spec n st T i hfresh hset hanchor
  refine ⟨hok, ?_⟩
  simp only [flattenNode, flattenChildren, get_app_structure, List.cons_append,
    List.nil_append, List.mem_cons, List.not_mem_nil, or_false, Prod.mk.injEq,
    and_false, false_and, false_or, or_false, and_true, reduceCtorEq] at hp
  rcases hp with h | h | h | h | h | h | h <;> subst h
  · exact ⟨"", materialized_readFile n _ _ _ hmat
      (by simp [flattenNode, flattenChildren, get_app_structure]), fun _ => rfl⟩
  · exact ⟨"", materialized_readFile n _ _ _ hmat
      (by simp [flattenNode, flattenChildren, get_app_structure]), fun _ => rfl⟩
  · exact ⟨"", materialized_readFile n _ _ _ hmat
      (by simp [flattenNode, flattenChildren, get_app_structure]), fun _ => rfl⟩
  · exact ⟨"", materialized_readFile n _ _ _ hmat
      (by simp [flattenNode, flattenChildren, get_app_structure]), fun _ => rfl⟩
  · exact ⟨"", materialized_readFile n _ _ _ hmat
      (by simp [flattenNode, flattenChildren, get_app_structure]), fun _ => rfl⟩
  · exact ⟨generate_models_init, materialized_readFile n _ _ _ hmat
      (by simp [flattenNode, flattenChildren, get_app_structure]),
      fun hne => absurd rfl hne⟩
  · exact ⟨"", materialized_readFile n _ _ _ hmat
      (by simp [flattenNode, flattenChildren, get_app_structure]), fun _ => rfl⟩

theorem C7_package_marker_files_witness :
    (create_app "billing" (initState "LOCAL_APPS = [\n]")).1 = none ∧
    ∃ c, readFile (create_app "billing" (initState "LOCAL_APPS = [\n]")).2
        (["modules", "billing", "migrations"] ++ ["__init__.py"]) = some c ∧
      (["modules", "billing", "migrations"] ≠ ["modules", "billing", "models"] → c = "") :=
  C7_package_marker_files "billing" (initState "LOCAL_APPS = [\n]")
    "LOCAL_APPS = [\n]" 0 ["modules", "billing", "migrations"]
    (by decide) (by decide) (by decide) (by decide)

/-- C8: the content of every file created under `modules/<n>` is a
deterministic function of the module name alone: two successful runs
from different fresh environments produce identical contents at every
template path. -/
theorem C8_contents_deterministic (n : String) (st1 st2 : PyState) (T1 T2 : String)
    (i1 i2 : Nat) (p : List String) (c : String)
    (hfresh1 : pathExists st1 ["modules", n] = false)
    (hset1 : readFile st1 settingsPath = some T1)
    (hanchor1 : (py_splitlines T1).findIdx? (fun l => l = anchorLine) = some i1)
    (hfresh2 : pathExists st2 ["modules", n] = false)
    (hset2 : readFile st2 settingsPath = some T2)
    (hanchor2 : (py_splitlines T2).findIdx? (fun l => l = anchorLine) = some i2)
    (hp : (p, some c) ∈ flattenNode ["modules", n] (.dir (get_app_structure n))) :
    readFile (create_app n st1).2 p = readFile (create_app n st2).2 p ∧
    readFile (create_app n st1).2 p = some c := by
  obtain ⟨-, hm1⟩ := create_app_success_spec n st1 T1 i1 hfresh1 hset1 hanchor1
  obtain ⟨-, hm2⟩ := create_app_success_spec n st2 T2 i2 hfresh2 hset2 hanchor2
  have r1 := materialized_readFile n _ p c hm1 hp
  have r2 := materialized_readFile n _ p c hm2 hp
  exact ⟨r1.trans r2.symm, r1⟩

set_option maxRecDepth 8000 in
theorem C8_contents_deterministic_witness :
    readFile (create_app "billing" (initState "LOCAL_APPS = [\n]")).2
        ["modules", "billing", "apps.py"]
      = readFile (create_app "billing"
          { dirs := [["docs"]],
            files := [(settingsPath, "X = 1\nLOCAL_APPS = [\n]"), (["README.md"], "readme")],
            out := ["earlier output"] }).2
        ["modules", "billing", "apps.py"] ∧
    readFile (create_app "billing" (initState "LOCAL_APPS = [\n]")).2
        ["modules", "billing", "apps.py"]
      = some (generate_app_config "billing") :=
  C8_contents_deterministic "billing" (initState "LOCAL_APPS = [\n]")
    { dirs := [["docs"]],
      files := [(settingsPath, "X = 1\nLOCAL_APPS = [\n]"), (["README.md"], "readme")],
      out := ["earlier output"] }
    "LOCAL_APPS = [\n]" "X = 1\nLOCAL_APPS = [\n]" 0 1
    ["modules", "billing", "apps.py"] (generate_app_config "billing")
    (by decide) (by decide) (by decide) (by decide) (by decide) (by decide) (by decide)
